import Mathlib

/-
  Shallow embedding of the billing core of the monoambientes rental app
  (src/App.tsx together with its types.ts / constants.ts):

  * the money ledger inside addPayment / addDepositPayment / addBookingPayment,
  * the invoice schedule generation inside addContract,
  * the contract reconciliation inside updateContract,
  * the booking pricer inside BookingFormModal.

  Modelling conventions:
  * JS numbers holding money are embedded as Int (the app only ever adds,
    subtracts and multiplies integral amounts; Math.round of the one division
    is modelled exactly on rationals via floor).
  * Date strings "YYYY-MM-DD" are embedded as civil-date triples; the code
    always parses them at a fixed wall-clock time (T12:00:00) so comparison
    of Date objects is exactly lexicographic comparison of the triples.
  * JS Date.setMonth(m+1) keeps the day-of-month and normalises an overflow
    (e.g. Jan 31 + 1 month = Mar 2/3) by rolling the excess days into the
    following month; addMonthJS reproduces this.
  * The period token "YYYY-MM" (built with padStart) is embedded as the pair
    (year, month); the string form is injective in the pair.
  * Ids built from Date.now() / getTime() are injective in the civil date the
    code derives them from, so they are embedded as strings built from the
    civil date instead of epoch milliseconds.
  * The TS enums InvoiceStatus and BookingStatus have identical value sets
    (PENDIENTE / PARCIAL / PAGADO), so one Lean type serves both.
-/

namespace Monoambientes

/-- Tri-state ledger status, values as in the source enums `InvoiceStatus`
and `BookingStatus` of types.ts (which have identical constructors). -/
inductive Status where
  | PENDIENTE
  | PARCIAL
  | PAGADO
deriving DecidableEq, Repr

open Status

/-- A payment entry (types.ts `Payment`): signed amount, negative = credit
note. -/
structure Payment where
  id : String
  amount : Int
  date : String
  payerName : String
  method : String
  observations : String
deriving DecidableEq, Repr

/-- The signed sum `payments.reduce((sum, p) => sum + p.amount, 0)` used by
all three payment-recording operations of App.tsx. -/
def sumAmounts (ps : List Payment) : Int :=
  ps.foldl (fun s p => s + p.amount) 0

/-- The fixed additional-charge record of types.ts `AdditionalCharges`. -/
structure Charges where
  internet : Int
  furniture : Int
  other : Int
deriving DecidableEq, Repr

/-- `Object.values(additionalCharges).reduce((a, b) => a + b, 0)`. -/
def chargesSum (ch : Charges) : Int :=
  ch.internet + ch.furniture + ch.other

/-- A civil calendar date (year, month 1..12, day 1..31); embeds both the
"YYYY-MM-DD" strings stored in contracts and the JS Date objects the code
builds from them at fixed time T12:00:00. -/
structure CivilDate where
  year : Nat
  month : Nat
  day : Nat
deriving DecidableEq, Repr

/-- Gregorian leap-year rule (as implemented by JS Date arithmetic). -/
def isLeap (y : Nat) : Bool :=
  (y % 4 == 0 && y % 100 != 0) || y % 400 == 0

/-- Length of a month in the Gregorian calendar. -/
def daysInMonth (y m : Nat) : Nat :=
  if m = 2 then (if isLeap y then 29 else 28)
  else if m = 4 ∨ m = 6 ∨ m = 9 ∨ m = 11 then 30
  else 31

/-- Linear month index; two valid dates share it iff they are in the same
calendar month. -/
def CivilDate.monthIdx (d : CivilDate) : Nat :=
  d.year * 12 + d.month

/-- Lexicographic comparison of civil dates; `a.leB b` embeds
`dateA <= dateB` on the JS Date objects the code parses at T12:00:00. -/
def CivilDate.leB (a b : CivilDate) : Bool :=
  if a.year < b.year then true
  else if b.year < a.year then false
  else if a.month < b.month then true
  else if b.month < a.month then false
  else a.day ≤ b.day

/-- Step the month number, rolling into the next year after December. -/
def rollMonth (y m : Nat) : Nat × Nat :=
  if m = 12 then (y + 1, 1) else (y, m + 1)

/-- JS day-of-month overflow normalisation: a day beyond the month's length
rolls the excess into the following month (for day ≤ 31 a single roll
suffices, since the excess is at most 3). -/
def normDay (y m d : Nat) : CivilDate :=
  if d ≤ daysInMonth y m then ⟨y, m, d⟩
  else
    let ym := rollMonth y m
    ⟨ym.1, ym.2, d - daysInMonth y m⟩

/-- `currentDate.setMonth(currentDate.getMonth() + 1)` on a JS Date: advance
the month keeping the day-of-month, then normalise a day overflow. -/
def addMonthJS (dt : CivilDate) : CivilDate :=
  let ym := rollMonth dt.year dt.month
  normDay ym.1 ym.2 dt.day

/-- `new Date(year, month - 1, day)` for month 1..12 (the only way the code
calls it): day overflow normalises into the following month. -/
def mkDateJS (y m d : Nat) : CivilDate :=
  normDay y m d

/-- A period token (the "YYYY-MM" string of the source, as a pair). -/
abbrev Period := Nat × Nat

/-- The period token of a date, `${getFullYear()}-${getMonth()+1}`. -/
def CivilDate.period (d : CivilDate) : Period :=
  (d.year, d.month)

/-- Fuel-indexed unfolding of the invoice-generation month walk
`while (currentDate <= endDate) { push; currentDate.setMonth(+1) }`. -/
def periodsAux : Nat → CivilDate → CivilDate → List CivilDate
  | 0, _, _ => []
  | fuel + 1, cur, last =>
      if cur.leB last then cur :: periodsAux fuel (addMonthJS cur) last else []

/-- The list of walk dates of the while loop of addContract / updateContract.
The fuel `last.monthIdx + 2 - cur.monthIdx` dominates the number of
iterations because every step strictly increases the month index and the
loop guard forces the index to stay at most `last.monthIdx`. -/
def periodsFrom (cur last : CivilDate) : List CivilDate :=
  periodsAux (last.monthIdx + 2 - cur.monthIdx) cur last

/-- A lease contract (types.ts `Contract`), with its embedded deposit
sub-ledger. -/
structure Contract where
  id : String
  unitId : String
  tenantName : String
  startDate : CivilDate
  endDate : CivilDate
  monthlyRent : Int
  additionalCharges : Charges
  depositInstallments : Int
  depositAmount : Int
  depositBalance : Int
  depositStatus : Status
  depositPayments : List Payment
deriving DecidableEq, Repr

/-- One billing period's invoice (types.ts `Invoice`). -/
structure Invoice where
  id : String
  unitId : String
  contractId : String
  tenantName : String
  period : Period
  dueDate : CivilDate
  baseRent : Int
  additionalCharges : Charges
  totalAmount : Int
  balance : Int
  status : Status
  payments : List Payment
  reminderSent : Bool
deriving DecidableEq, Repr

/-- A short-stay booking (types.ts `Booking`). -/
structure Booking where
  id : String
  unitId : String
  guestName : String
  startDate : CivilDate
  endDate : CivilDate
  guestCount : Int
  totalAmount : Int
  deposit : Int
  status : Status
  balance : Int
  payments : List Payment
deriving DecidableEq, Repr

/-- The four-tier nightly rate table of `GlobalSettings.dailyRates`. -/
structure DailyRates where
  p1 : Int
  p2 : Int
  p3 : Int
  p4 : Int
deriving DecidableEq, Repr

/-- Process-wide settings (types.ts `GlobalSettings`). -/
structure GlobalSettings where
  additionalCharges : Charges
  dailyRates : DailyRates
  bookingDepositPercentage : Int
deriving DecidableEq, Repr

/-- Unit category enum of types.ts `UnitType`. -/
inductive UnitType where
  | APARTMENT_MONTHLY
  | APARTMENT_DAILY
  | COMMERCIAL_MONTHLY
deriving DecidableEq, Repr

/-- A rentable unit (types.ts `Unit`); `utype` embeds the `type` field. -/
structure UnitRec where
  id : String
  name : String
  utype : UnitType
deriving DecidableEq, Repr

/-- The full application state held by the useAppData hook: the five
persisted collections. -/
structure AppState where
  units : List UnitRec
  contracts : List Contract
  invoices : List Invoice
  bookings : List Booking
  settings : GlobalSettings
deriving DecidableEq, Repr

/-- String form of a walk date, standing in for the injective
`currentDate.getTime()` component of generated invoice ids. -/
def dateTag (d : CivilDate) : String :=
  toString d.year ++ "-" ++ toString d.month ++ "-" ++ toString d.day

/-- The invoice pushed for one walk date inside addContract (App.tsx
lines 216-231): period and due date are derived from the walk date, the due
date re-anchored to the contract start's day-of-month. -/
def mkInvoiceAt (c : Contract) (d : CivilDate) : Invoice :=
  let totalAmount := c.monthlyRent + chargesSum c.additionalCharges
  { id := "invoice-" ++ c.id ++ "-" ++ dateTag d
  , contractId := c.id
  , unitId := c.unitId
  , tenantName := c.tenantName
  , period := d.period
  , dueDate := mkDateJS d.year d.month c.startDate.day
  , baseRent := c.monthlyRent
  , additionalCharges := c.additionalCharges
  , totalAmount := totalAmount
  , balance := totalAmount
  , status := PENDIENTE
  , payments := []
  , reminderSent := false }

/-- The invoice batch generated by addContract's while loop (App.tsx
lines 209-233). -/
def generateInvoices (c : Contract) : List Invoice :=
  (periodsFrom c.startDate c.endDate).map (mkInvoiceAt c)

/-- The caller-supplied part of a new contract (the `Omit<Contract, ...>`
parameter of addContract). -/
structure NewContractData where
  unitId : String
  tenantName : String
  startDate : CivilDate
  endDate : CivilDate
  monthlyRent : Int
  additionalCharges : Charges
  depositInstallments : Int
deriving DecidableEq, Repr

/-- addContract (App.tsx lines 196-235): build the full contract with a
fresh deposit sub-ledger targeting one month's rent, and generate its
invoice batch. The fresh id (`contract-Date.now()` in the source) is a
parameter. -/
def addContractFn (data : NewContractData) (newId : String) :
    Contract × List Invoice :=
  let fullContract : Contract :=
    { id := newId
    , unitId := data.unitId
    , tenantName := data.tenantName
    , startDate := data.startDate
    , endDate := data.endDate
    , monthlyRent := data.monthlyRent
    , additionalCharges := data.additionalCharges
    , depositInstallments := data.depositInstallments
    , depositAmount := data.monthlyRent
    , depositBalance := data.monthlyRent
    , depositStatus := PENDIENTE
    , depositPayments := [] }
  (fullContract, generateInvoices fullContract)

/-- The body of the map inside addPayment (App.tsx lines 328-340): on the
matching invoice, append the entry (with the freshly generated id), then
recompute balance and status exactly as the source does. -/
def applyPaymentToInvoice (invoiceId : String) (pd : Payment)
    (newId : String) (inv : Invoice) : Invoice :=
  if inv.id == invoiceId then
    let newPayments := inv.payments ++ [{ pd with id := newId }]
    let paidAmount := sumAmounts newPayments
    let balance := inv.totalAmount - paidAmount
    let status0 := PARCIAL
    let status1 := if balance ≤ 0 then PAGADO else status0
    let status2 :=
      if paidAmount = 0 ∧ balance > 0 then PENDIENTE else status1
    { inv with payments := newPayments, balance := balance, status := status2 }
  else inv

/-- addPayment (App.tsx lines 327-341). -/
def addPayment (invoices : List Invoice) (invoiceId : String)
    (pd : Payment) (newId : String) : List Invoice :=
  invoices.map (applyPaymentToInvoice invoiceId pd newId)

/-- The body of the map inside addDepositPayment (App.tsx lines 344-355):
note the source has no PENDIENTE branch here — the recomputed status is
PAGADO when the balance is ≤ 0 and PARCIAL otherwise. -/
def applyDepositPaymentToContract (contractId : String) (pd : Payment)
    (newId : String) (c : Contract) : Contract :=
  if c.id == contractId then
    let newPayments := c.depositPayments ++ [{ pd with id := newId }]
    let paidAmount := sumAmounts newPayments
    let balance := c.depositAmount - paidAmount
    let status0 := PARCIAL
    let status1 := if balance ≤ 0 then PAGADO else status0
    { c with depositPayments := newPayments
           , depositBalance := balance
           , depositStatus := status1 }
  else c

/-- addDepositPayment (App.tsx lines 343-356). -/
def addDepositPayment (contracts : List Contract) (contractId : String)
    (pd : Payment) (newId : String) : List Contract :=
  contracts.map (applyDepositPaymentToContract contractId pd newId)

/-- The body of the map inside addBookingPayment (App.tsx lines 374-388):
same status recomputation as for invoices (including the PENDIENTE
branch). -/
def applyPaymentToBooking (bookingId : String) (pd : Payment)
    (newId : String) (book : Booking) : Booking :=
  if book.id == bookingId then
    let newPayments := book.payments ++ [{ pd with id := newId }]
    let paidAmount := sumAmounts newPayments
    let balance := book.totalAmount - paidAmount
    let status0 := PARCIAL
    let status1 := if balance ≤ 0 then PAGADO else status0
    let status2 :=
      if paidAmount = 0 ∧ balance > 0 then PENDIENTE else status1
    { book with payments := newPayments, balance := balance, status := status2 }
  else book

/-- addBookingPayment (App.tsx lines 373-389). -/
def addBookingPayment (bookings : List Booking) (bookingId : String)
    (pd : Payment) (newId : String) : List Booking :=
  bookings.map (applyPaymentToBooking bookingId pd newId)

/-- The caller-supplied part of a new booking (the `Omit<Booking, ...>`
parameter of addBooking). -/
structure NewBookingData where
  unitId : String
  guestName : String
  startDate : CivilDate
  endDate : CivilDate
  guestCount : Int
  totalAmount : Int
  deposit : Int
deriving DecidableEq, Repr

/-- addBooking (App.tsx lines 362-371): a fresh booking starts with an empty
payment list, balance equal to its total, and status PENDIENTE. -/
def addBookingFn (data : NewBookingData) (newId : String) : Booking :=
  { id := newId
  , unitId := data.unitId
  , guestName := data.guestName
  , startDate := data.startDate
  , endDate := data.endDate
  , guestCount := data.guestCount
  , totalAmount := data.totalAmount
  , deposit := data.deposit
  , payments := []
  , balance := data.totalAmount
  , status := PENDIENTE }

/-- The per-kept-invoice update of updateContract (App.tsx lines 275-301):
relabel tenant name and due date unconditionally; when the invoice is not
PAGADO, recompute totals from the new contract terms and re-derive balance
and status from the previously paid amount `totalAmount - balance`. -/
def updateKept (c : Contract) (inv : Invoice) : Invoice :=
  let newTotalAmount := c.monthlyRent + chargesSum c.additionalCharges
  let base :=
    { inv with tenantName := c.tenantName
             , dueDate := mkDateJS inv.period.1 inv.period.2 c.startDate.day }
  if base.status ≠ PAGADO then
    let paidAmount := inv.totalAmount - inv.balance
    let newBalance := newTotalAmount - paidAmount
    let newStatus :=
      if newBalance ≤ 0 then PAGADO
      else if paidAmount > 0 then PARCIAL else PENDIENTE
    { base with baseRent := c.monthlyRent
              , additionalCharges := c.additionalCharges
              , totalAmount := newTotalAmount
              , balance := newBalance
              , status := newStatus }
  else base

/-- The invoice updateContract creates for a period with no surviving
invoice (App.tsx lines 303-321). -/
def mkNewInvoice (c : Contract) (p : Period) : Invoice :=
  let totalAmount := c.monthlyRent + chargesSum c.additionalCharges
  { id := "invoice-" ++ c.id ++ "-" ++ dateTag ⟨p.1, p.2, 1⟩
  , contractId := c.id
  , unitId := c.unitId
  , tenantName := c.tenantName
  , period := p
  , dueDate := mkDateJS p.1 p.2 c.startDate.day
  , baseRent := c.monthlyRent
  , additionalCharges := c.additionalCharges
  , totalAmount := totalAmount
  , balance := totalAmount
  , status := PENDIENTE
  , payments := []
  , reminderSent := false }

/-- One step of the forEach over the contract's existing invoices
(App.tsx lines 275-301): keep (updated) an invoice whose period is still in
the remaining wanted-period set, deleting that period from the set;
silently drop any other invoice. The state is (kept so far, remaining
wanted periods in insertion order — a JS Set iterates that way). -/
def keepStep (c : Contract) (st : List Invoice × List Period)
    (inv : Invoice) : List Invoice × List Period :=
  if inv.period ∈ st.2 then
    (st.1 ++ [updateKept c inv], st.2.erase inv.period)
  else st

/-- The invoice reconciliation of updateContract (App.tsx lines 260-324):
partition off other contracts' invoices, walk the new period set, keep and
update surviving invoices, then create PENDING invoices for the leftover
periods, in set order. -/
def reconcileInvoices (c : Contract) (invoices : List Invoice) :
    List Invoice :=
  let otherInvoices := invoices.filter (fun i => !(i.contractId == c.id))
  let mine := invoices.filter (fun i => i.contractId == c.id)
  let newPeriods := (periodsFrom c.startDate c.endDate).map CivilDate.period
  let folded := mine.foldl (keepStep c) ([], newPeriods)
  otherInvoices ++ folded.1 ++ folded.2.map (mkNewInvoice c)

/-- The deposit adjustment of updateContract (App.tsx lines 243-256),
triggered only when the stored deposit is not PAGADO and the rent changed:
re-target the deposit to the new rent, keep the already-paid amount
(derived as depositAmount - depositBalance) and the payment list, and
re-derive balance and status. -/
def adjustDeposit (originalContract updatedContract : Contract) : Contract :=
  if originalContract.depositStatus ≠ PAGADO ∧
      originalContract.monthlyRent ≠ updatedContract.monthlyRent then
    let paidAmount :=
      originalContract.depositAmount - originalContract.depositBalance
    let newDepositAmount := updatedContract.monthlyRent
    let newBalance := newDepositAmount - paidAmount
    let newStatus :=
      if newBalance ≤ 0 then PAGADO
      else if paidAmount > 0 then PARCIAL else PENDIENTE
    { updatedContract with
        depositAmount := newDepositAmount
      , depositBalance := newBalance
      , depositStatus := newStatus
      , depositPayments := originalContract.depositPayments }
  else updatedContract

/-- updateContract (App.tsx lines 237-325): a no-op when no stored contract
has the edited contract's id; otherwise apply the deposit adjustment,
replace the stored contract, and reconcile the invoice set. -/
def updateContractFn (contracts : List Contract) (invoices : List Invoice)
    (updatedContract : Contract) : List Contract × List Invoice :=
  match contracts.find? (fun c => c.id == updatedContract.id) with
  | none => (contracts, invoices)
  | some originalContract =>
      let finalUpdatedContract := adjustDeposit originalContract updatedContract
      ( contracts.map
          (fun c => if c.id == finalUpdatedContract.id
                    then finalUpdatedContract else c)
      , reconcileInvoices finalUpdatedContract invoices )

/-- Day count of a civil date from a fixed epoch: full years before, plus
leap days among them, plus the day of year. Differences of this count equal
the exact whole-day differences of the UTC-midnight timestamps JS builds
from "YYYY-MM-DD" date-input strings. -/
def epochDayN (dt : CivilDate) : Nat :=
  let y := dt.year - 1
  let leapDays := y / 4 - y / 100 + y / 400
  let beforeMonth :=
    (List.range (dt.month - 1)).foldl
      (fun s i => s + daysInMonth dt.year (i + 1)) 0
  365 * y + leapDays + beforeMonth + dt.day

/-- JS `a || b` on numbers in the rate lookup: 0 is falsy and falls through
to the default. -/
def jsOrInt (a b : Int) : Int :=
  if a = 0 then b else a

/-- The nightly rate lookup of BookingFormModal (App.tsx lines 1115-1116):
`settings.dailyRates[`p${guestCount}`] || settings.dailyRates.p4`. For a
guest count other than 1..4 the indexed tier does not exist, so the lookup
yields the p4 default. -/
def dailyRateFor (r : DailyRates) (guestCount : Int) : Int :=
  if guestCount = 1 then jsOrInt r.p1 r.p4
  else if guestCount = 2 then jsOrInt r.p2 r.p4
  else if guestCount = 3 then jsOrInt r.p3 r.p4
  else if guestCount = 4 then jsOrInt r.p4 r.p4
  else r.p4

/-- The suggested total of BookingFormModal (App.tsx lines 1108-1118).
`Math.ceil((end - start) / 86400000)` is the exact day difference of the
two UTC-midnight dates (the quotient is an integer, so ceil is the
identity). -/
def suggestedAmount (rates : DailyRates) (startDate endDate : CivilDate)
    (guestCount : Int) : Int :=
  if guestCount < 1 then 0
  else
    let nights : Int := (epochDayN endDate : Int) - (epochDayN startDate : Int)
    if nights ≤ 0 then 0
    else nights * dailyRateFor rates guestCount

/-- Math.round of `totalAmount * pct / 100` (App.tsx line 1121), computed
exactly: Math.round x = floor (x + 1/2), and floor ((a / 100) + 1/2) =
fdiv (2 * a + 100) 200. -/
def suggestedDeposit (totalAmount pct : Int) : Int :=
  Int.fdiv (2 * (totalAmount * pct) + 100) 200

/-- State-level addPayment: only the invoices collection is touched. -/
def addPaymentState (st : AppState) (invoiceId : String) (pd : Payment)
    (newId : String) : AppState :=
  { st with invoices := addPayment st.invoices invoiceId pd newId }

/-- State-level addDepositPayment: only the contracts collection is
touched. -/
def addDepositPaymentState (st : AppState) (contractId : String)
    (pd : Payment) (newId : String) : AppState :=
  { st with contracts := addDepositPayment st.contracts contractId pd newId }

/-- State-level addBookingPayment: only the bookings collection is
touched. -/
def addBookingPaymentState (st : AppState) (bookingId : String)
    (pd : Payment) (newId : String) : AppState :=
  { st with bookings := addBookingPayment st.bookings bookingId pd newId }

/-- Spec-side definition (for refinement comparison only), following the
spec's words: `paidAmount = Σ amount for amount > 0`. -/
def specPaidAmount (ps : List Payment) : Int :=
  ((ps.filter (fun p => 0 < p.amount)).map (fun p => p.amount)).sum

/-- Spec-side definition (for refinement comparison only), following the
spec's words: `creditedAmount = Σ |amount| for amount < 0`. -/
def specCreditedAmount (ps : List Payment) : Int :=
  ((ps.filter (fun p => p.amount < 0)).map (fun p => |p.amount|)).sum

/-- Spec-side definition (for refinement comparison only), following the
claim's words: `balance = totalDue - paidAmount - creditedAmount`. -/
def specBalance (totalDue : Int) (ps : List Payment) : Int :=
  totalDue - specPaidAmount ps - specCreditedAmount ps

/-- Spec-side definition (for refinement comparison only), following the
claim's words: PAID if balance ≤ 0, else PARTIAL if the sum of positive
amounts > 0, else PENDING. -/
def specStatus (totalDue : Int) (ps : List Payment) : Status :=
  if specBalance totalDue ps ≤ 0 then PAGADO
  else if 0 < specPaidAmount ps then PARCIAL
  else PENDIENTE

/-! ### Ledger lemmas -/

lemma foldl_add_shift (ps : List Payment) (a : Int) :
    ps.foldl (fun s p => s + p.amount) a = a + sumAmounts ps := by
  induction ps generalizing a with
  | nil => simp [sumAmounts]
  | cons p ps ih =>
      simp only [List.foldl_cons, sumAmounts, ih (a + p.amount),
        ih (0 + p.amount)]
      ring

lemma sumAmounts_cons (p : Payment) (ps : List Payment) :
    sumAmounts (p :: ps) = p.amount + sumAmounts ps := by
  simpa [sumAmounts] using foldl_add_shift ps (0 + p.amount)

lemma sumAmounts_append (ps qs : List Payment) :
    sumAmounts (ps ++ qs) = sumAmounts ps + sumAmounts qs := by
  induction ps with
  | nil => simp [sumAmounts]
  | cons p ps ih => simp [sumAmounts_cons, ih]; ring

lemma specPaidAmount_cons (p : Payment) (ps : List Payment) :
    specPaidAmount (p :: ps)
      = (if 0 < p.amount then p.amount else 0) + specPaidAmount ps := by
  simp only [specPaidAmount, List.filter_cons]
  split <;> simp_all

lemma specCreditedAmount_cons (p : Payment) (ps : List Payment) :
    specCreditedAmount (p :: ps)
      = (if p.amount < 0 then |p.amount| else 0) + specCreditedAmount ps := by
  simp only [specCreditedAmount, List.filter_cons]
  split <;> simp_all

/-- The signed sum the code folds is the spec's paid total minus the spec's
credited total: entries with positive amount contribute themselves, entries
with negative amount contribute minus their absolute value, zero entries
contribute nothing. -/
lemma sumAmounts_eq_spec (ps : List Payment) :
    sumAmounts ps = specPaidAmount ps - specCreditedAmount ps := by
  induction ps with
  | nil => simp [sumAmounts, specPaidAmount, specCreditedAmount]
  | cons p ps ih =>
      rw [sumAmounts_cons, specPaidAmount_cons, specCreditedAmount_cons, ih]
      rcases lt_trichotomy p.amount 0 with h | h | h
      · simp [h, not_lt.mpr h.le, abs_of_neg h]; ring
      · simp [h]
      · simp [h, not_lt.mpr h.le]; ring

/-! ### C1 -/

/-- Reshuffling of the status conditional computed by addPayment and
addBookingPayment: testing the signed sum for zero before the balance sign
is the same as testing the balance sign first and then whether the paid and
credited totals cancel. -/
lemma status_reshuffle (T P C : Int) :
    (if P - C = 0 ∧ T - (P - C) > 0 then PENDIENTE
     else if T - (P - C) ≤ 0 then PAGADO else PARCIAL)
  = (if T - (P - C) ≤ 0 then PAGADO else if P = C then PENDIENTE
     else PARCIAL) := by
  split_ifs <;> first | rfl | (exfalso; omega)

/-- Concrete payment entry used in witnesses and counterexamples. -/
def samplePay (i : String) (amt : Int) : Payment :=
  { id := i, amount := amt, date := "2024-01-01", payerName := "Ana"
  , method := "efectivo", observations := "" }

/-- Concrete invoice used in witnesses and counterexamples. -/
def sampleInvoice (total bal : Int) (st : Status) (ps : List Payment) :
    Invoice :=
  { id := "i1", unitId := "am-1", contractId := "c1", tenantName := "Ana"
  , period := (2024, 1), dueDate := ⟨2024, 1, 15⟩, baseRent := total
  , additionalCharges := ⟨0, 0, 0⟩, totalAmount := total, balance := bal
  , status := st, payments := ps, reminderSent := false }

/-- C1, counterexample: recording a credit note of -400 on a 1000-total
invoice that already holds a +400 payment yields balance 1000 and status
PENDIENTE, while the claim's formula (balance = total - Σpositive -
Σ|negative|, status PARTIAL because Σpositive > 0) demands 200 and
PARCIAL. -/
theorem c1_ledger_formula_counterexample :
    (addPayment [sampleInvoice 1000 600 PARCIAL [samplePay "p1" 400]]
        "i1" (samplePay "x" (-400)) "p2").map
        (fun i => (i.balance, i.status)) = [((1000 : Int), PENDIENTE)] ∧
    (addPayment [sampleInvoice 1000 600 PARCIAL [samplePay "p1" 400]]
        "i1" (samplePay "x" (-400)) "p2").map
        (fun i => (specBalance i.totalAmount i.payments,
                   specStatus i.totalAmount i.payments))
      = [((200 : Int), PARCIAL)] ∧
    ((1000 : Int), PENDIENTE) ≠ ((200 : Int), PARCIAL) := by
  refine ⟨by decide, by decide, by decide⟩

/-- C1 as amended: every payment-recording operation computes
balance = totalDue - Σpositive + Σ|negative| (the signed sum), and the
status is PAGADO when the balance is ≤ 0, else — for the invoice and
booking ledgers — PENDIENTE when the positive and credited totals cancel
exactly and PARCIAL otherwise, while the deposit ledger never reports
PENDIENTE: it is PARCIAL whenever its balance stays positive. -/
theorem c1_ledger_formula_amended :
    (∀ (inv : Invoice) (iid : String) (pd : Payment) (nid : String),
      inv.id = iid →
      (applyPaymentToInvoice iid pd nid inv).balance
          = inv.totalAmount
            - specPaidAmount (inv.payments ++ [{ pd with id := nid }])
            + specCreditedAmount (inv.payments ++ [{ pd with id := nid }]) ∧
      (applyPaymentToInvoice iid pd nid inv).status
          = (if (applyPaymentToInvoice iid pd nid inv).balance ≤ 0 then PAGADO
             else if specPaidAmount (inv.payments ++ [{ pd with id := nid }])
                 = specCreditedAmount (inv.payments ++ [{ pd with id := nid }])
               then PENDIENTE else PARCIAL)) ∧
    (∀ (book : Booking) (bid : String) (pd : Payment) (nid : String),
      book.id = bid →
      (applyPaymentToBooking bid pd nid book).balance
          = book.totalAmount
            - specPaidAmount (book.payments ++ [{ pd with id := nid }])
            + specCreditedAmount (book.payments ++ [{ pd with id := nid }]) ∧
      (applyPaymentToBooking bid pd nid book).status
          = (if (applyPaymentToBooking bid pd nid book).balance ≤ 0 then PAGADO
             else if specPaidAmount (book.payments ++ [{ pd with id := nid }])
                 = specCreditedAmount (book.payments ++ [{ pd with id := nid }])
               then PENDIENTE else PARCIAL)) ∧
    (∀ (c : Contract) (cid : String) (pd : Payment) (nid : String),
      c.id = cid →
      (applyDepositPaymentToContract cid pd nid c).depositBalance
          = c.depositAmount
            - specPaidAmount (c.depositPayments ++ [{ pd with id := nid }])
            + specCreditedAmount
                (c.depositPayments ++ [{ pd with id := nid }]) ∧
      (applyDepositPaymentToContract cid pd nid c).depositStatus
          = (if (applyDepositPaymentToContract cid pd nid c).depositBalance ≤ 0
             then PAGADO else PARCIAL)) := by
  refine ⟨?_, ?_, ?_⟩
  · intro inv iid pd nid hid
    subst hid
    simp only [applyPaymentToInvoice, beq_self_eq_true, if_true,
      sumAmounts_eq_spec]
    exact ⟨by ring, status_reshuffle _ _ _⟩
  · intro book bid pd nid hid
    subst hid
    simp only [applyPaymentToBooking, beq_self_eq_true, if_true,
      sumAmounts_eq_spec]
    exact ⟨by ring, status_reshuffle _ _ _⟩
  · intro c cid pd nid hid
    subst hid
    simp only [applyDepositPaymentToContract, beq_self_eq_true, if_true,
      sumAmounts_eq_spec]
    exact ⟨by ring, trivial⟩

/-- C1 witness: the amended theorem applied to the concrete credit-note
scenario reproduces balance 1000 on the invoice ledger. -/
theorem c1_ledger_formula_witness :
    (applyPaymentToInvoice "i1" (samplePay "x" (-400)) "p2"
        (sampleInvoice 1000 600 PARCIAL [samplePay "p1" 400])).balance
      = 1000 := by
  have h := c1_ledger_formula_amended.1
    (sampleInvoice 1000 600 PARCIAL [samplePay "p1" 400]) "i1"
    (samplePay "x" (-400)) "p2" rfl
  rw [h.1]
  decide

/-! ### C2 -/

/-- C2: the concrete payment/credit-note scenario on a 1000-total invoice
(400 payment gives balance 600 and PARCIAL, then a -400 credit note gives
balance 1000 and PENDIENTE), and in general every payment-recording
operation leaves balance = total - Σpositive + Σ|negative|. -/
theorem c2_payment_application :
    ((addPayment [sampleInvoice 1000 1000 PENDIENTE []] "i1"
        (samplePay "x" 400) "p1").map (fun i => (i.balance, i.status))
      = [((600 : Int), PARCIAL)]) ∧
    ((addPayment (addPayment [sampleInvoice 1000 1000 PENDIENTE []] "i1"
          (samplePay "x" 400) "p1") "i1" (samplePay "y" (-400)) "p2").map
        (fun i => (i.balance, i.status)) = [((1000 : Int), PENDIENTE)]) ∧
    (∀ (inv : Invoice) (iid : String) (pd : Payment) (nid : String),
      inv.id = iid →
      (applyPaymentToInvoice iid pd nid inv).balance
        = inv.totalAmount
          - specPaidAmount (inv.payments ++ [{ pd with id := nid }])
          + specCreditedAmount (inv.payments ++ [{ pd with id := nid }])) ∧
    (∀ (book : Booking) (bid : String) (pd : Payment) (nid : String),
      book.id = bid →
      (applyPaymentToBooking bid pd nid book).balance
        = book.totalAmount
          - specPaidAmount (book.payments ++ [{ pd with id := nid }])
          + specCreditedAmount (book.payments ++ [{ pd with id := nid }])) ∧
    (∀ (c : Contract) (cid : String) (pd : Payment) (nid : String),
      c.id = cid →
      (applyDepositPaymentToContract cid pd nid c).depositBalance
        = c.depositAmount
          - specPaidAmount (c.depositPayments ++ [{ pd with id := nid }])
          + specCreditedAmount
              (c.depositPayments ++ [{ pd with id := nid }])) := by
  refine ⟨by decide, by decide, ?_, ?_, ?_⟩
  · intro inv iid pd nid hid
    subst hid
    simp only [applyPaymentToInvoice, beq_self_eq_true, if_true,
      sumAmounts_eq_spec]
    ring
  · intro book bid pd nid hid
    subst hid
    simp only [applyPaymentToBooking, beq_self_eq_true, if_true,
      sumAmounts_eq_spec]
    ring
  · intro c cid pd nid hid
    subst hid
    simp only [applyDepositPaymentToContract, beq_self_eq_true, if_true,
      sumAmounts_eq_spec]
    ring

/-- C2 witness: the balance invariant applied to the concrete credit-note
step of the scenario. -/
theorem c2_payment_application_witness :
    (applyPaymentToInvoice "i1" (samplePay "y" (-400)) "p2"
        (sampleInvoice 1000 600 PARCIAL [samplePay "x" 400])).balance
      = 1000 := by
  have h := c2_payment_application.2.2.1
    (sampleInvoice 1000 600 PARCIAL [samplePay "x" 400]) "i1"
    (samplePay "y" (-400)) "p2" rfl
  rw [h]
  decide

/-! ### C6 -/

/-- Concrete contract used in witnesses and counterexamples. -/
def sampleContract (depAmount depBal : Int) (depSt : Status)
    (depPs : List Payment) : Contract :=
  { id := "c1", unitId := "am-1", tenantName := "Ana"
  , startDate := ⟨2024, 1, 15⟩, endDate := ⟨2024, 3, 15⟩
  , monthlyRent := 1000, additionalCharges := ⟨0, 0, 0⟩
  , depositInstallments := 1, depositAmount := depAmount
  , depositBalance := depBal, depositStatus := depSt
  , depositPayments := depPs }

/-- C6, counterexample: on the deposit sub-ledger a credit note that fully
offsets the prior payment (net paid 0, balance back to the full 1000)
recomputes the status to PARCIAL, not PENDIENTE — addDepositPayment has no
PENDIENTE branch, so the PARTIAL to PENDING transition is unreachable
there. -/
theorem c6_partial_to_pending_counterexample :
    (addDepositPayment [sampleContract 1000 600 PARCIAL [samplePay "p1" 400]]
        "c1" (samplePay "x" (-400)) "p2").map
        (fun c => (c.depositBalance, c.depositStatus))
      = [((1000 : Int), PARCIAL)] ∧ PARCIAL ≠ PENDIENTE := by
  exact ⟨by decide, by decide⟩

/-- C6 as amended: the PARTIAL to PENDING transition is reachable for the
invoice and booking ledgers (a full credit-note offset with a positive
total recomputes PENDIENTE), but not for the deposit sub-ledger, which
recomputes PARCIAL whenever its balance stays positive. -/
theorem c6_partial_to_pending_amended :
    (∀ (inv : Invoice) (iid : String) (pd : Payment) (nid : String),
      inv.id = iid →
      sumAmounts (inv.payments ++ [{ pd with id := nid }]) = 0 →
      0 < inv.totalAmount →
      (applyPaymentToInvoice iid pd nid inv).status = PENDIENTE ∧
      (applyPaymentToInvoice iid pd nid inv).balance = inv.totalAmount) ∧
    (∀ (book : Booking) (bid : String) (pd : Payment) (nid : String),
      book.id = bid →
      sumAmounts (book.payments ++ [{ pd with id := nid }]) = 0 →
      0 < book.totalAmount →
      (applyPaymentToBooking bid pd nid book).status = PENDIENTE ∧
      (applyPaymentToBooking bid pd nid book).balance = book.totalAmount) ∧
    (∀ (c : Contract) (cid : String) (pd : Payment) (nid : String),
      c.id = cid →
      sumAmounts (c.depositPayments ++ [{ pd with id := nid }]) = 0 →
      0 < c.depositAmount →
      (applyDepositPaymentToContract cid pd nid c).depositStatus = PARCIAL ∧
      (applyDepositPaymentToContract cid pd nid c).depositBalance
        = c.depositAmount) := by
  refine ⟨?_, ?_, ?_⟩
  · intro inv iid pd nid hid hsum hT
    subst hid
    simp only [applyPaymentToInvoice, beq_self_eq_true, if_true]
    rw [hsum]
    refine ⟨?_, by ring⟩
    have hc : (0 : Int) = 0 ∧ inv.totalAmount - 0 > 0 := ⟨rfl, by omega⟩
    rw [if_pos hc]
  · intro book bid pd nid hid hsum hT
    subst hid
    simp only [applyPaymentToBooking, beq_self_eq_true, if_true]
    rw [hsum]
    refine ⟨?_, by ring⟩
    have hc : (0 : Int) = 0 ∧ book.totalAmount - 0 > 0 := ⟨rfl, by omega⟩
    rw [if_pos hc]
  · intro c cid pd nid hid hsum hT
    subst hid
    simp only [applyDepositPaymentToContract, beq_self_eq_true, if_true]
    rw [hsum]
    refine ⟨?_, by ring⟩
    have hc : ¬ (c.depositAmount - 0 ≤ 0) := by omega
    rw [if_neg hc]

/-- C6 witness: the amended theorem applied to the invoice ledger at the
concrete full-offset input yields PENDIENTE. -/
theorem c6_partial_to_pending_witness :
    (applyPaymentToInvoice "i1" (samplePay "x" (-400)) "p2"
        (sampleInvoice 1000 600 PARCIAL [samplePay "p1" 400])).status
      = PENDIENTE := by
  exact (c6_partial_to_pending_amended.1
    (sampleInvoice 1000 600 PARCIAL [samplePay "p1" 400]) "i1"
    (samplePay "x" (-400)) "p2" rfl (by decide) (by decide)).1

/-! ### C8 -/

/-- C8: after any of the three payment-recording operations the status is
PAGADO iff the recomputed balance is ≤ 0, and every newly created invoice,
deposit sub-ledger and booking starts PENDIENTE with an empty payment list
and balance equal to its full total. -/
theorem c8_paid_iff_nonpositive_balance :
    (∀ (inv : Invoice) (iid : String) (pd : Payment) (nid : String),
      inv.id = iid →
      ((applyPaymentToInvoice iid pd nid inv).status = PAGADO ↔
        (applyPaymentToInvoice iid pd nid inv).balance ≤ 0)) ∧
    (∀ (book : Booking) (bid : String) (pd : Payment) (nid : String),
      book.id = bid →
      ((applyPaymentToBooking bid pd nid book).status = PAGADO ↔
        (applyPaymentToBooking bid pd nid book).balance ≤ 0)) ∧
    (∀ (c : Contract) (cid : String) (pd : Payment) (nid : String),
      c.id = cid →
      ((applyDepositPaymentToContract cid pd nid c).depositStatus = PAGADO ↔
        (applyDepositPaymentToContract cid pd nid c).depositBalance ≤ 0)) ∧
    (∀ (data : NewContractData) (newId : String),
      (∀ inv ∈ (addContractFn data newId).2,
        inv.status = PENDIENTE ∧ inv.balance = inv.totalAmount ∧
        inv.payments = []) ∧
      (addContractFn data newId).1.depositStatus = PENDIENTE ∧
      (addContractFn data newId).1.depositBalance
        = (addContractFn data newId).1.depositAmount ∧
      (addContractFn data newId).1.depositPayments = []) ∧
    (∀ (data : NewBookingData) (newId : String),
      (addBookingFn data newId).status = PENDIENTE ∧
      (addBookingFn data newId).balance
        = (addBookingFn data newId).totalAmount ∧
      (addBookingFn data newId).payments = []) := by
  refine ⟨?_, ?_, ?_, ?_, ?_⟩
  · intro inv iid pd nid hid
    subst hid
    simp only [applyPaymentToInvoice, beq_self_eq_true, if_true]
    split_ifs <;> simp <;> omega
  · intro book bid pd nid hid
    subst hid
    simp only [applyPaymentToBooking, beq_self_eq_true, if_true]
    split_ifs <;> simp <;> omega
  · intro c cid pd nid hid
    subst hid
    simp only [applyDepositPaymentToContract, beq_self_eq_true, if_true]
    split_ifs <;> simp <;> omega
  · intro data newId
    refine ⟨?_, rfl, rfl, rfl⟩
    intro inv hinv
    simp only [addContractFn, generateInvoices, List.mem_map] at hinv
    obtain ⟨d, _, rfl⟩ := hinv
    exact ⟨rfl, rfl, rfl⟩
  · intro data newId
    exact ⟨rfl, rfl, rfl⟩

/-- C8 witness: the PAGADO-iff-nonpositive-balance equivalence applied to a
concrete overshooting payment. -/
theorem c8_paid_iff_nonpositive_balance_witness :
    (applyPaymentToInvoice "i1" (samplePay "x" 1200) "p1"
        (sampleInvoice 1000 1000 PENDIENTE [])).status = PAGADO := by
  exact (c8_paid_iff_nonpositive_balance.1
    (sampleInvoice 1000 1000 PENDIENTE []) "i1" (samplePay "x" 1200) "p1"
    rfl).mpr (by decide)

/-! ### C10 -/

lemma map_eq_self {α : Type} (l : List α) (f : α → α)
    (h : ∀ a ∈ l, f a = a) : l.map f = l := by
  induction l with
  | nil => rfl
  | cons x xs ih =>
      simp only [List.map_cons, h x (by simp)]
      rw [ih (fun a ha => h a (by simp [ha]))]

lemma applyPaymentToInvoice_nomatch (iid : String) (pd : Payment)
    (nid : String) (inv : Invoice) (h : inv.id ≠ iid) :
    applyPaymentToInvoice iid pd nid inv = inv := by
  have hb : (inv.id == iid) = false := beq_eq_false_iff_ne.mpr h
  simp [applyPaymentToInvoice, hb]

lemma applyDepositPaymentToContract_nomatch (cid : String) (pd : Payment)
    (nid : String) (c : Contract) (h : c.id ≠ cid) :
    applyDepositPaymentToContract cid pd nid c = c := by
  have hb : (c.id == cid) = false := beq_eq_false_iff_ne.mpr h
  simp [applyDepositPaymentToContract, hb]

lemma applyPaymentToBooking_nomatch (bid : String) (pd : Payment)
    (nid : String) (b : Booking) (h : b.id ≠ bid) :
    applyPaymentToBooking bid pd nid b = b := by
  have hb : (b.id == bid) = false := beq_eq_false_iff_ne.mpr h
  simp [applyPaymentToBooking, hb]

/-- C10: frame property of the three payment-recording operations. Each
touches only its own collection; within that collection a non-matching
record is left identical; the matching record changes only its payment
list (appending exactly the one new entry), balance and status, all its
other fields being preserved; and when no record matches the id, the whole
state is unchanged. -/
theorem c10_payment_frame :
    (∀ (st : AppState) (iid : String) (pd : Payment) (nid : String),
      (addPaymentState st iid pd nid).units = st.units ∧
      (addPaymentState st iid pd nid).contracts = st.contracts ∧
      (addPaymentState st iid pd nid).bookings = st.bookings ∧
      (addPaymentState st iid pd nid).settings = st.settings) ∧
    (∀ (inv : Invoice) (iid : String) (pd : Payment) (nid : String),
      inv.id ≠ iid → applyPaymentToInvoice iid pd nid inv = inv) ∧
    (∀ (inv : Invoice) (iid : String) (pd : Payment) (nid : String),
      inv.id = iid →
      (applyPaymentToInvoice iid pd nid inv).payments
          = inv.payments ++ [{ pd with id := nid }] ∧
      (applyPaymentToInvoice iid pd nid inv).id = inv.id ∧
      (applyPaymentToInvoice iid pd nid inv).unitId = inv.unitId ∧
      (applyPaymentToInvoice iid pd nid inv).contractId = inv.contractId ∧
      (applyPaymentToInvoice iid pd nid inv).tenantName = inv.tenantName ∧
      (applyPaymentToInvoice iid pd nid inv).period = inv.period ∧
      (applyPaymentToInvoice iid pd nid inv).dueDate = inv.dueDate ∧
      (applyPaymentToInvoice iid pd nid inv).baseRent = inv.baseRent ∧
      (applyPaymentToInvoice iid pd nid inv).additionalCharges
          = inv.additionalCharges ∧
      (applyPaymentToInvoice iid pd nid inv).totalAmount = inv.totalAmount ∧
      (applyPaymentToInvoice iid pd nid inv).reminderSent
          = inv.reminderSent) ∧
    (∀ (st : AppState) (iid : String) (pd : Payment) (nid : String),
      (∀ inv ∈ st.invoices, inv.id ≠ iid) →
      addPaymentState st iid pd nid = st) ∧
    (∀ (st : AppState) (cid : String) (pd : Payment) (nid : String),
      (addDepositPaymentState st cid pd nid).units = st.units ∧
      (addDepositPaymentState st cid pd nid).invoices = st.invoices ∧
      (addDepositPaymentState st cid pd nid).bookings = st.bookings ∧
      (addDepositPaymentState st cid pd nid).settings = st.settings) ∧
    (∀ (c : Contract) (cid : String) (pd : Payment) (nid : String),
      c.id ≠ cid → applyDepositPaymentToContract cid pd nid c = c) ∧
    (∀ (c : Contract) (cid : String) (pd : Payment) (nid : String),
      c.id = cid →
      (applyDepositPaymentToContract cid pd nid c).depositPayments
          = c.depositPayments ++ [{ pd with id := nid }] ∧
      (applyDepositPaymentToContract cid pd nid c).id = c.id ∧
      (applyDepositPaymentToContract cid pd nid c).unitId = c.unitId ∧
      (applyDepositPaymentToContract cid pd nid c).tenantName
          = c.tenantName ∧
      (applyDepositPaymentToContract cid pd nid c).startDate = c.startDate ∧
      (applyDepositPaymentToContract cid pd nid c).endDate = c.endDate ∧
      (applyDepositPaymentToContract cid pd nid c).monthlyRent
          = c.monthlyRent ∧
      (applyDepositPaymentToContract cid pd nid c).additionalCharges
          = c.additionalCharges ∧
      (applyDepositPaymentToContract cid pd nid c).depositInstallments
          = c.depositInstallments ∧
      (applyDepositPaymentToContract cid pd nid c).depositAmount
          = c.depositAmount) ∧
    (∀ (st : AppState) (cid : String) (pd : Payment) (nid : String),
      (∀ c ∈ st.contracts, c.id ≠ cid) →
      addDepositPaymentState st cid pd nid = st) ∧
    (∀ (st : AppState) (bid : String) (pd : Payment) (nid : String),
      (addBookingPaymentState st bid pd nid).units = st.units ∧
      (addBookingPaymentState st bid pd nid).contracts = st.contracts ∧
      (addBookingPaymentState st bid pd nid).invoices = st.invoices ∧
      (addBookingPaymentState st bid pd nid).settings = st.settings) ∧
    (∀ (b : Booking) (bid : String) (pd : Payment) (nid : String),
      b.id ≠ bid → applyPaymentToBooking bid pd nid b = b) ∧
    (∀ (b : Booking) (bid : String) (pd : Payment) (nid : String),
      b.id = bid →
      (applyPaymentToBooking bid pd nid b).payments
          = b.payments ++ [{ pd with id := nid }] ∧
      (applyPaymentToBooking bid pd nid b).id = b.id ∧
      (applyPaymentToBooking bid pd nid b).unitId = b.unitId ∧
      (applyPaymentToBooking bid pd nid b).guestName = b.guestName ∧
      (applyPaymentToBooking bid pd nid b).startDate = b.startDate ∧
      (applyPaymentToBooking bid pd nid b).endDate = b.endDate ∧
      (applyPaymentToBooking bid pd nid b).guestCount = b.guestCount ∧
      (applyPaymentToBooking bid pd nid b).totalAmount = b.totalAmount ∧
      (applyPaymentToBooking bid pd nid b).deposit = b.deposit) ∧
    (∀ (st : AppState) (bid : String) (pd : Payment) (nid : String),
      (∀ b ∈ st.bookings, b.id ≠ bid) →
      addBookingPaymentState st bid pd nid = st) := by
  refine ⟨?_, ?_, ?_, ?_, ?_, ?_, ?_, ?_, ?_, ?_, ?_, ?_⟩
  · intro st iid pd nid
    exact ⟨rfl, rfl, rfl, rfl⟩
  · exact fun inv iid pd nid h => applyPaymentToInvoice_nomatch iid pd nid inv h
  · intro inv iid pd nid hid
    subst hid
    simp [applyPaymentToInvoice]
  · intro st iid pd nid hall
    cases st with
    | mk us cs is bs se =>
        simp only [addPaymentState, addPayment]
        congr 1
        exact map_eq_self _ _
          (fun inv hinv =>
            applyPaymentToInvoice_nomatch iid pd nid inv (hall inv hinv))
  · intro st cid pd nid
    exact ⟨rfl, rfl, rfl, rfl⟩
  · exact fun c cid pd nid h => applyDepositPaymentToContract_nomatch cid pd nid c h
  · intro c cid pd nid hid
    subst hid
    simp [applyDepositPaymentToContract]
  · intro st cid pd nid hall
    cases st with
    | mk us cs is bs se =>
        simp only [addDepositPaymentState, addDepositPayment]
        congr 1
        exact map_eq_self _ _
          (fun c hc =>
            applyDepositPaymentToContract_nomatch cid pd nid c (hall c hc))
  · intro st bid pd nid
    exact ⟨rfl, rfl, rfl, rfl⟩
  · exact fun b bid pd nid h => applyPaymentToBooking_nomatch bid pd nid b h
  · intro b bid pd nid hid
    subst hid
    simp [applyPaymentToBooking]
  · intro st bid pd nid hall
    cases st with
    | mk us cs is bs se =>
        simp only [addBookingPaymentState, addBookingPayment]
        congr 1
        exact map_eq_self _ _
          (fun b hb =>
            applyPaymentToBooking_nomatch bid pd nid b (hall b hb))

/-- C10 witness: the matching-record clause applied concretely — recording
a payment appends exactly the new entry and preserves the invoice's
total. -/
theorem c10_payment_frame_witness :
    (applyPaymentToInvoice "i1" (samplePay "x" 400) "p1"
        (sampleInvoice 1000 1000 PENDIENTE [])).payments
      = (sampleInvoice 1000 1000 PENDIENTE []).payments
          ++ [{ samplePay "x" 400 with id := "p1" }] ∧
    (applyPaymentToInvoice "i1" (samplePay "x" 400) "p1"
        (sampleInvoice 1000 1000 PENDIENTE [])).totalAmount
      = (sampleInvoice 1000 1000 PENDIENTE []).totalAmount := by
  have h := c10_payment_frame.2.2.1
    (sampleInvoice 1000 1000 PENDIENTE []) "i1" (samplePay "x" 400) "p1" rfl
  exact ⟨h.1, h.2.2.2.2.2.2.2.2.2.1⟩

/-! ### C5 -/

lemma find?_map_replace (cs : List Contract) (u orig : Contract)
    (h : cs.find? (fun c => c.id == u.id) = some orig) :
    (cs.map (fun c => if c.id == u.id then u else c)).find?
      (fun c => c.id == u.id) = some u := by
  induction cs with
  | nil => simp at h
  | cons c cs ih =>
      by_cases hc : (c.id == u.id) = true
      · rw [List.map_cons, if_pos hc]
        exact List.find?_cons_of_pos _ (by simp)
      · have hb : (c.id == u.id) = false := by simpa using hc
        rw [List.map_cons, if_neg hc]
        simp only [List.find?_cons, hb] at h ⊢
        exact ih h

/-- The deposit adjustment is skipped whenever the stored deposit is
already PAGADO or the rent did not change. -/
lemma adjustDeposit_skip (orig u : Contract)
    (h : orig.depositStatus = PAGADO ∨ orig.monthlyRent = u.monthlyRent) :
    adjustDeposit orig u = u := by
  have hcond : ¬ (orig.depositStatus ≠ PAGADO ∧
      orig.monthlyRent ≠ u.monthlyRent) := by
    rcases h with h | h
    · intro hc; exact hc.1 h
    · intro hc; exact hc.2 h
  simp [adjustDeposit, hcond]

/-- C5: when the stored contract's deposit is PAGADO, updateContract stores
the submitted contract verbatim (so, the form submitting the stored deposit
fields untouched, depositAmount, depositBalance, depositStatus and
depositPayments stay exactly as they were and the status stays PAGADO);
and the deposit adjustment runs only when the stored deposit is not
PAGADO and the monthly rent changed — in every other case the submitted
contract is stored unmodified. -/
theorem c5_deposit_never_reopens :
    (∀ (cs : List Contract) (invs : List Invoice) (u orig : Contract),
      cs.find? (fun c => c.id == u.id) = some orig →
      orig.depositStatus = PAGADO →
      u.depositAmount = orig.depositAmount →
      u.depositBalance = orig.depositBalance →
      u.depositStatus = orig.depositStatus →
      u.depositPayments = orig.depositPayments →
      (updateContractFn cs invs u).1.find? (fun c => c.id == u.id)
          = some u ∧ u.depositStatus = PAGADO) ∧
    (∀ orig u : Contract,
      orig.depositStatus = PAGADO ∨ orig.monthlyRent = u.monthlyRent →
      adjustDeposit orig u = u) := by
  constructor
  · intro cs invs u orig hfind hpaid hA hB hS hP
    refine ⟨?_, hS.trans hpaid⟩
    unfold updateContractFn
    rw [hfind]
    simp only
    rw [adjustDeposit_skip orig u (Or.inl hpaid)]
    exact find?_map_replace cs u orig hfind
  · exact adjustDeposit_skip

/-- C5 witness: a PAGADO deposit survives a rent change from 1000 to 1500
untouched. -/
theorem c5_deposit_never_reopens_witness :
    (updateContractFn [sampleContract 1000 0 PAGADO [samplePay "p1" 1000]]
        [] { sampleContract 1000 0 PAGADO [samplePay "p1" 1000] with
             monthlyRent := 1500 }).1.find?
        (fun c => c.id == "c1") = some
          { sampleContract 1000 0 PAGADO [samplePay "p1" 1000] with
            monthlyRent := 1500 } := by
  have h := c5_deposit_never_reopens.1
    [sampleContract 1000 0 PAGADO [samplePay "p1" 1000]] []
    { sampleContract 1000 0 PAGADO [samplePay "p1" 1000] with
      monthlyRent := 1500 }
    (sampleContract 1000 0 PAGADO [samplePay "p1" 1000])
    (by decide) rfl rfl rfl rfl rfl
  exact h.1

/-! ### C9 -/

/-- Spec-side rate lookup (for refinement comparison only), following the
claim's words: guest counts 1-3 map directly to tiers p1..p3 and guest
count ≥ 4 maps to tier p4. -/
def specDailyRate (r : DailyRates) (guestCount : Int) : Int :=
  if guestCount = 1 then r.p1
  else if guestCount = 2 then r.p2
  else if guestCount = 3 then r.p3
  else r.p4

/-- Concrete rate table of the spec's worked example. -/
def sampleRates : DailyRates := ⟨100, 150, 200, 220⟩

/-- Rate table with a zero middle tier, exercising the falsy-value
fallback of the JS lookup. -/
def sampleRatesZeroP2 : DailyRates := ⟨100, 0, 200, 220⟩

/-- C9, counterexample: with rate table p2 = 0, two guests for three nights
are priced with the p4 fallback (3 × 220 = 660), not the direct p2 tier
the claim demands (3 × 0 = 0): the JS lookup `rates[p2] || rates.p4`
treats a zero rate as falsy. -/
theorem c9_booking_pricer_counterexample :
    suggestedAmount sampleRatesZeroP2 ⟨2024, 6, 1⟩ ⟨2024, 6, 4⟩ 2 = 660 ∧
    ((epochDayN ⟨2024, 6, 4⟩ : Int) - epochDayN ⟨2024, 6, 1⟩)
        * specDailyRate sampleRatesZeroP2 2 = 0 ∧
    (660 : Int) ≠ 0 := by
  exact ⟨by decide, by decide, by decide⟩

/-- The code's rate lookup agrees with the spec's direct tier mapping
except that a zero (falsy) tier rate falls back to p4. -/
lemma dailyRateFor_eq_spec (r : DailyRates) (gc : Int) :
    dailyRateFor r gc
      = (if specDailyRate r gc = 0 then r.p4 else specDailyRate r gc) := by
  unfold dailyRateFor specDailyRate jsOrInt
  split_ifs <;> rfl

/-- C9 as amended: nights is the exact day difference of the stay's
endpoints; a non-positive night count prices to 0; otherwise the total is
nights times the nightly rate, where guest counts 1-3 map to tiers p1..p3
unless that tier's rate is zero (a falsy rate falls back to p4) and any
other guest count uses p4; the suggested deposit is
round(totalAmount × depositPercent / 100) with halves rounded up; and the
worked example (2024-06-01 to 2024-06-04, 2 guests, p2 = 150, 30%) gives
nights = 3, total = 450, deposit = 135, while 6 guests price at p4. -/
theorem c9_booking_pricer_amended :
    (∀ (r : DailyRates) (s e : CivilDate) (gc : Int),
      1 ≤ gc →
      ((epochDayN e : Int) - epochDayN s ≤ 0 →
        suggestedAmount r s e gc = 0) ∧
      (0 < (epochDayN e : Int) - epochDayN s →
        suggestedAmount r s e gc
          = ((epochDayN e : Int) - epochDayN s)
            * (if specDailyRate r gc = 0 then r.p4
               else specDailyRate r gc))) ∧
    (∀ t p : Int,
      200 * suggestedDeposit t p ≤ 2 * (t * p) + 100 ∧
      2 * (t * p) + 100 < 200 * suggestedDeposit t p + 200) ∧
    ((epochDayN ⟨2024, 6, 4⟩ : Int) - epochDayN ⟨2024, 6, 1⟩ = 3 ∧
     suggestedAmount sampleRates ⟨2024, 6, 1⟩ ⟨2024, 6, 4⟩ 2 = 450 ∧
     suggestedDeposit 450 30 = 135 ∧
     suggestedAmount sampleRates ⟨2024, 6, 1⟩ ⟨2024, 6, 4⟩ 6 = 660 ∧
     sampleRates.p4 = 220) := by
  refine ⟨?_, ?_, by decide, by decide, by decide, by decide, by decide⟩
  · intro r s e gc hgc
    constructor
    · intro hn
      unfold suggestedAmount
      rw [if_neg (by omega), if_pos hn]
    · intro hn
      unfold suggestedAmount
      rw [if_neg (by omega), if_neg (by omega), dailyRateFor_eq_spec]
  · intro t p
    have h1 := Int.fdiv_add_fmod (2 * (t * p) + 100) 200
    have h2 := Int.fmod_nonneg' (2 * (t * p) + 100)
      (by decide : (0 : Int) < 200)
    have h3 := Int.fmod_lt_of_pos (2 * (t * p) + 100)
      (by decide : (0 : Int) < 200)
    unfold suggestedDeposit
    omega

/-- C9 witness: the amended pricing rule applied to the worked example
(three nights, two guests). -/
theorem c9_booking_pricer_witness :
    suggestedAmount sampleRates ⟨2024, 6, 1⟩ ⟨2024, 6, 4⟩ 2
      = ((epochDayN ⟨2024, 6, 4⟩ : Int) - epochDayN ⟨2024, 6, 1⟩)
        * (if specDailyRate sampleRates 2 = 0 then sampleRates.p4
           else specDailyRate sampleRates 2) := by
  exact (c9_booking_pricer_amended.1 sampleRates ⟨2024, 6, 1⟩ ⟨2024, 6, 4⟩ 2
    (by decide)).2 (by decide)

/-! ### Calendar walk lemmas -/

lemma daysInMonth_ge_28 (y m : Nat) : 28 ≤ daysInMonth y m := by
  unfold daysInMonth
  split_ifs <;> omega

lemma addMonthJS_def (d : CivilDate) :
    addMonthJS d
      = normDay (rollMonth d.year d.month).1 (rollMonth d.year d.month).2
          d.day := rfl

/-- For a day-of-month at most 28 the JS month step never overflows: it
just advances the month. -/
lemma addMonthJS_no_overflow (d : CivilDate) (h28 : d.day ≤ 28) :
    addMonthJS d
      = ⟨(rollMonth d.year d.month).1, (rollMonth d.year d.month).2,
          d.day⟩ := by
  rw [addMonthJS_def]
  unfold normDay
  rw [if_pos (le_trans h28 (daysInMonth_ge_28 _ _))]

lemma rollMonth_idx (y m : Nat) :
    (rollMonth y m).1 * 12 + (rollMonth y m).2 = y * 12 + m + 1 := by
  unfold rollMonth
  split_ifs with h
  · subst h
    simp
    ring
  · simp
    ring

lemma rollMonth_month_bounds (y m : Nat) (h1 : 1 ≤ m) (h2 : m ≤ 12) :
    1 ≤ (rollMonth y m).2 ∧ (rollMonth y m).2 ≤ 12 := by
  unfold rollMonth
  split_ifs with h
  · simp
  · simp
    omega

lemma normDay_monthIdx (y m d : Nat) :
    (normDay y m d).monthIdx = y * 12 + m ∨
    (normDay y m d).monthIdx = y * 12 + m + 1 := by
  unfold normDay CivilDate.monthIdx
  split_ifs with h
  · left
    rfl
  · right
    have := rollMonth_idx y m
    dsimp only
    omega

lemma normDay_month_bounds (y m d : Nat) (h1 : 1 ≤ m) (h2 : m ≤ 12) :
    1 ≤ (normDay y m d).month ∧ (normDay y m d).month ≤ 12 := by
  unfold normDay
  split_ifs with h
  · exact ⟨h1, h2⟩
  · exact rollMonth_month_bounds y m h1 h2

lemma monthIdx_addMonthJS (d : CivilDate) :
    (addMonthJS d).monthIdx = d.monthIdx + 1 ∨
    (addMonthJS d).monthIdx = d.monthIdx + 2 := by
  rw [addMonthJS_def]
  have h := normDay_monthIdx (rollMonth d.year d.month).1
    (rollMonth d.year d.month).2 d.day
  have h2 := rollMonth_idx d.year d.month
  unfold CivilDate.monthIdx at h ⊢
  rcases h with h | h
  · left
    omega
  · right
    omega

lemma addMonthJS_month_bounds (d : CivilDate)
    (h : 1 ≤ d.month ∧ d.month ≤ 12) :
    1 ≤ (addMonthJS d).month ∧ (addMonthJS d).month ≤ 12 := by
  rw [addMonthJS_def]
  have hb := rollMonth_month_bounds d.year d.month h.1 h.2
  exact normDay_month_bounds _ _ _ hb.1 hb.2

lemma leB_iff (a b : CivilDate) (ha1 : 1 ≤ a.month) (ha2 : a.month ≤ 12)
    (hb1 : 1 ≤ b.month) (hb2 : b.month ≤ 12) :
    a.leB b = true ↔
      (a.monthIdx < b.monthIdx ∨
        (a.monthIdx = b.monthIdx ∧ a.day ≤ b.day)) := by
  unfold CivilDate.leB CivilDate.monthIdx
  split_ifs <;> simp <;> omega

lemma leB_monthIdx_le (a b : CivilDate) (ha1 : 1 ≤ a.month)
    (ha2 : a.month ≤ 12) (hb1 : 1 ≤ b.month) (hb2 : b.month ≤ 12)
    (h : a.leB b = true) : a.monthIdx ≤ b.monthIdx := by
  rcases (leB_iff a b ha1 ha2 hb1 hb2).mp h with h | h <;> omega

/-- The fuel of periodsFrom is saturated: any extra fuel beyond the month
gap changes nothing, because the loop guard stops the walk at the end
month. -/
lemma periodsAux_stable (last : CivilDate) (hb1 : 1 ≤ last.month)
    (hb2 : last.month ≤ 12) :
    ∀ (fuel : Nat) (cur : CivilDate), 1 ≤ cur.month → cur.month ≤ 12 →
      last.monthIdx + 1 ≤ cur.monthIdx + fuel →
      periodsAux (fuel + 1) cur last = periodsAux fuel cur last := by
  intro fuel
  induction fuel with
  | zero =>
      intro cur h1 h2 hb
      by_cases hle : cur.leB last = true
      · exact absurd (leB_monthIdx_le cur last h1 h2 hb1 hb2 hle)
          (by omega)
      · simp [periodsAux, hle]
  | succ fuel ih =>
      intro cur h1 h2 hb
      by_cases hle : cur.leB last = true
      · have hm := addMonthJS_month_bounds cur ⟨h1, h2⟩
        simp only [periodsAux, hle, if_true]
        congr 1
        rcases monthIdx_addMonthJS cur with h4 | h4 <;>
          exact ih (addMonthJS cur) hm.1 hm.2 (by omega)
      · simp [periodsAux, hle]

/-- The loop-unfolding equation of the month walk. -/
lemma periodsFrom_unfold (cur last : CivilDate) (hc1 : 1 ≤ cur.month)
    (hc2 : cur.month ≤ 12) (hb1 : 1 ≤ last.month) (hb2 : last.month ≤ 12) :
    periodsFrom cur last
      = if cur.leB last = true then
          cur :: periodsFrom (addMonthJS cur) last
        else [] := by
  by_cases hle : cur.leB last = true
  · rw [if_pos hle]
    have hidxle := leB_monthIdx_le cur last hc1 hc2 hb1 hb2 hle
    have hm := addMonthJS_month_bounds cur ⟨hc1, hc2⟩
    unfold periodsFrom
    obtain ⟨f, hf⟩ : ∃ f, last.monthIdx + 2 - cur.monthIdx = f + 1 :=
      ⟨last.monthIdx + 1 - cur.monthIdx, by omega⟩
    rw [hf]
    simp only [periodsAux, hle, if_true]
    congr 1
    rcases monthIdx_addMonthJS cur with h4 | h4
    · have he : last.monthIdx + 2 - (addMonthJS cur).monthIdx = f := by
        omega
      rw [he]
    · have he : last.monthIdx + 2 - (addMonthJS cur).monthIdx = f - 1 := by
        omega
      rw [he]
      obtain ⟨g, hg⟩ : ∃ g, f = g + 1 := ⟨f - 1, by omega⟩
      subst hg
      simp only [Nat.add_sub_cancel]
      exact (periodsAux_stable last hb1 hb2 g (addMonthJS cur) hm.1 hm.2
        (by omega)).symm ▸ rfl
  · rw [if_neg hle]
    unfold periodsFrom
    cases h : last.monthIdx + 2 - cur.monthIdx with
    | zero => rfl
    | succ k => simp [periodsAux, hle]

/-- Every walk date sits at or after the starting month and keeps a valid
month number. -/
lemma periodsAux_mem_bounds (last : CivilDate) :
    ∀ (fuel : Nat) (cur : CivilDate), 1 ≤ cur.month → cur.month ≤ 12 →
      ∀ x ∈ periodsAux fuel cur last,
        cur.monthIdx ≤ x.monthIdx ∧ 1 ≤ x.month ∧ x.month ≤ 12 := by
  intro fuel
  induction fuel with
  | zero =>
      intro cur h1 h2 x hx
      simp [periodsAux] at hx
  | succ fuel ih =>
      intro cur h1 h2 x hx
      by_cases hle : cur.leB last = true
      · simp only [periodsAux, hle, if_true, List.mem_cons] at hx
        rcases hx with rfl | hx
        · exact ⟨le_refl _, h1, h2⟩
        · have hm := addMonthJS_month_bounds cur ⟨h1, h2⟩
          have h3 := ih (addMonthJS cur) hm.1 hm.2 x hx
          rcases monthIdx_addMonthJS cur with h4 | h4 <;>
            exact ⟨by omega, h3.2⟩
      · simp [periodsAux, hle] at hx

/-- The period tokens produced by the month walk are pairwise distinct. -/
lemma periodsAux_periods_nodup (last : CivilDate) :
    ∀ (fuel : Nat) (cur : CivilDate), 1 ≤ cur.month → cur.month ≤ 12 →
      ((periodsAux fuel cur last).map CivilDate.period).Nodup := by
  intro fuel
  induction fuel with
  | zero =>
      intro cur h1 h2
      simp [periodsAux]
  | succ fuel ih =>
      intro cur h1 h2
      by_cases hle : cur.leB last = true
      · have hm := addMonthJS_month_bounds cur ⟨h1, h2⟩
        simp only [periodsAux, hle, if_true, List.map_cons,
          List.nodup_cons]
        refine ⟨?_, ih (addMonthJS cur) hm.1 hm.2⟩
        intro hmem
        obtain ⟨x, hx, hpx⟩ := List.mem_map.mp hmem
        have h3 := periodsAux_mem_bounds last fuel (addMonthJS cur)
          hm.1 hm.2 x hx
        have h4 : x.monthIdx = cur.monthIdx := by
          have hy : x.year = cur.year := congrArg Prod.fst hpx
          have hmo : x.month = cur.month := congrArg Prod.snd hpx
          unfold CivilDate.monthIdx
          rw [hy, hmo]
        rcases monthIdx_addMonthJS cur with h5 | h5 <;> omega
      · simp [periodsAux, hle]

lemma periodsFrom_periods_nodup (s e : CivilDate) (hs1 : 1 ≤ s.month)
    (hs2 : s.month ≤ 12) :
    ((periodsFrom s e).map CivilDate.period).Nodup :=
  periodsAux_periods_nodup e _ s hs1 hs2

/-- The civil date of a month index (month indices invert to dates with a
chosen day-of-month). -/
def dateOfIdx (i day : Nat) : CivilDate :=
  ⟨(i - 1) / 12, (i - 1) % 12 + 1, day⟩

lemma dateOfIdx_monthIdx (i day : Nat) (h : 1 ≤ i) :
    (dateOfIdx i day).monthIdx = i := by
  simp only [dateOfIdx, CivilDate.monthIdx]
  omega

lemma dateOfIdx_month_bounds (i day : Nat) :
    1 ≤ (dateOfIdx i day).month ∧ (dateOfIdx i day).month ≤ 12 := by
  simp only [dateOfIdx]
  omega

lemma dateOfIdx_self (d : CivilDate) (h1 : 1 ≤ d.month)
    (h2 : d.month ≤ 12) : dateOfIdx d.monthIdx d.day = d := by
  obtain ⟨y, m, dd⟩ := d
  simp only [dateOfIdx, CivilDate.monthIdx] at h1 h2 ⊢
  rw [CivilDate.mk.injEq]
  exact ⟨by omega, by omega, rfl⟩

/-- Stepping a no-overflow date advances the month index by exactly one. -/
lemma addMonthJS_dateOfIdx (i day : Nat) (hi : 1 ≤ i) (hd28 : day ≤ 28) :
    addMonthJS (dateOfIdx i day) = dateOfIdx (i + 1) day := by
  rw [addMonthJS_no_overflow _ hd28]
  show (⟨(rollMonth ((i - 1) / 12) ((i - 1) % 12 + 1)).1,
        (rollMonth ((i - 1) / 12) ((i - 1) % 12 + 1)).2, day⟩ : CivilDate)
      = dateOfIdx (i + 1) day
  unfold rollMonth dateOfIdx
  by_cases h12 : (i - 1) % 12 + 1 = 12
  · rw [if_pos h12]
    dsimp only
    rw [CivilDate.mk.injEq]
    exact ⟨by omega, by omega, rfl⟩
  · rw [if_neg h12]
    dsimp only
    rw [CivilDate.mk.injEq]
    exact ⟨by omega, by omega, rfl⟩

/-- The loop guard for a no-overflow walk date: the walk continues exactly
while the month index stays at most the end month's index, the end month
itself included only when the anchored day-of-month is at most the end
day. -/
lemma leB_dateOfIdx (e : CivilDate) (day i : Nat) (hi : 1 ≤ i)
    (he1 : 1 ≤ e.month) (he2 : e.month ≤ 12) :
    (dateOfIdx i day).leB e = true ↔
      i ≤ (if day ≤ e.day then e.monthIdx else e.monthIdx - 1) := by
  rw [leB_iff _ _ (dateOfIdx_month_bounds i day).1
    (dateOfIdx_month_bounds i day).2 he1 he2]
  rw [dateOfIdx_monthIdx i day hi]
  have hE : 1 ≤ e.monthIdx := by
    unfold CivilDate.monthIdx
    omega
  show (i < e.monthIdx ∨ i = e.monthIdx ∧ day ≤ e.day) ↔ _
  split_ifs with hde
  · constructor
    · rintro (h | h) <;> omega
    · intro h
      rcases Nat.lt_or_ge i e.monthIdx with h2 | h2
      · exact Or.inl h2
      · exact Or.inr ⟨by omega, hde⟩
  · constructor
    · rintro (h | ⟨h1, h2⟩)
      · omega
      · exact absurd h2 hde
    · intro h
      exact Or.inl (by omega)

/-- Characterisation of the month walk when the anchored day-of-month is
at most 28 (no overflow): the walk dates are exactly the consecutive month
indices from the start index up to the end index, the end month included
iff the anchored day is at most the end date's day. -/
lemma periodsFrom_aligned (e : CivilDate) (day : Nat) (hd28 : day ≤ 28)
    (he1 : 1 ≤ e.month) (he2 : e.month ≤ 12) :
    ∀ (k i : Nat), 1 ≤ i →
      (if day ≤ e.day then e.monthIdx else e.monthIdx - 1) + 1 - i = k →
      periodsFrom (dateOfIdx i day) e
        = (List.range' i k).map (fun j => dateOfIdx j day) := by
  intro k
  induction k with
  | zero =>
      intro i hi hk
      rw [periodsFrom_unfold _ _ (dateOfIdx_month_bounds i day).1
        (dateOfIdx_month_bounds i day).2 he1 he2]
      have hno : ¬ ((dateOfIdx i day).leB e = true) := by
        intro hc
        have := (leB_dateOfIdx e day i hi he1 he2).mp hc
        omega
      rw [if_neg hno]
      simp
  | succ k ih =>
      intro i hi hk
      have hle : (dateOfIdx i day).leB e = true :=
        (leB_dateOfIdx e day i hi he1 he2).mpr (by omega)
      rw [periodsFrom_unfold _ _ (dateOfIdx_month_bounds i day).1
        (dateOfIdx_month_bounds i day).2 he1 he2]
      rw [if_pos hle, addMonthJS_dateOfIdx i day hi hd28]
      rw [ih (i + 1) (by omega) (by omega)]
      rw [List.range'_succ]
      rfl

/-- The month walk of a contract whose start day-of-month is at most 28:
one date per consecutive month index. -/
lemma periodsFrom_range (s e : CivilDate) (hs1 : 1 ≤ s.month)
    (hs2 : s.month ≤ 12) (hd28 : s.day ≤ 28) (he1 : 1 ≤ e.month)
    (he2 : e.month ≤ 12) :
    periodsFrom s e
      = (List.range' s.monthIdx
          ((if s.day ≤ e.day then e.monthIdx else e.monthIdx - 1) + 1
            - s.monthIdx)).map (fun j => dateOfIdx j s.day) := by
  have hi : 1 ≤ s.monthIdx := by
    unfold CivilDate.monthIdx
    omega
  have h := periodsFrom_aligned e s.day hd28 he1 he2 _ s.monthIdx hi rfl
  rw [dateOfIdx_self s hs1 hs2] at h
  exact h

/-! ### C4 -/

/-- Contract with a day-31 start date, demonstrating the month-skipping
overflow of the JS month walk. -/
def sampleContractJan31 : Contract :=
  { sampleContract 1000 1000 PENDIENTE [] with startDate := ⟨2024, 1, 31⟩ }

/-- C4, counterexample: a contract from 2024-01-31 to 2024-03-15 starts
before and ends after February 2024, yet generates invoices only for
2024-01 and 2024-03 — the JS month step jumps from Jan 31 to Mar 2, so
the calendar month 2024-02 inside the range is skipped. -/
theorem c4_schedule_counterexample :
    sampleContractJan31.startDate.leB sampleContractJan31.endDate = true ∧
    sampleContractJan31.startDate.monthIdx < (2024 : Nat) * 12 + 2 ∧
    (2024 : Nat) * 12 + 2 < sampleContractJan31.endDate.monthIdx + 1 ∧
    (generateInvoices sampleContractJan31).map (fun i => i.period)
      = [(2024, 1), (2024, 3)] ∧
    ((2024, 2) : Period) ∉
      (generateInvoices sampleContractJan31).map (fun i => i.period) := by
  refine ⟨by decide, by decide, by decide, by decide, by decide⟩

/-- C4 as amended: for a contract with valid dates, start day-of-month at
most 28 and start day ≤ end day, contract creation generates exactly one
invoice per calendar month from the start month to the end month
inclusive, ordered by period ascending with no duplicates (the period list
equals the consecutive month-index range mapped to (year, month) tokens);
and the 2024-01-15 to 2024-03-15 example yields exactly the three periods
2024-01, 2024-02, 2024-03, each due on the 15th. -/
theorem c4_schedule_amended :
    (∀ c : Contract,
      1 ≤ c.startDate.month → c.startDate.month ≤ 12 →
      1 ≤ c.endDate.month → c.endDate.month ≤ 12 →
      c.startDate.day ≤ 28 → c.startDate.day ≤ c.endDate.day →
      (generateInvoices c).map (fun i => i.period)
        = (List.range' c.startDate.monthIdx
            (c.endDate.monthIdx + 1 - c.startDate.monthIdx)).map
            (fun j => ((j - 1) / 12, (j - 1) % 12 + 1))) ∧
    ((generateInvoices (sampleContract 1000 1000 PENDIENTE [])).map
        (fun i => (i.period, i.dueDate))
      = [((2024, 1), ⟨2024, 1, 15⟩), ((2024, 2), ⟨2024, 2, 15⟩),
         ((2024, 3), ⟨2024, 3, 15⟩)]) := by
  constructor
  · intro c hs1 hs2 he1 he2 hd28 hde
    unfold generateInvoices
    rw [periodsFrom_range c.startDate c.endDate hs1 hs2 hd28 he1 he2]
    rw [if_pos hde]
    simp only [List.map_map]
    rfl
  · decide

/-- C4 witness: the amended schedule shape applied to the example
contract. -/
theorem c4_schedule_amended_witness :
    (generateInvoices (sampleContract 1000 1000 PENDIENTE [])).map
        (fun i => i.period)
      = (List.range'
          (sampleContract 1000 1000 PENDIENTE []).startDate.monthIdx
          ((sampleContract 1000 1000 PENDIENTE []).endDate.monthIdx + 1
            - (sampleContract 1000 1000 PENDIENTE
                []).startDate.monthIdx)).map
          (fun j => ((j - 1) / 12, (j - 1) % 12 + 1)) := by
  exact c4_schedule_amended.1 (sampleContract 1000 1000 PENDIENTE [])
    (by decide) (by decide) (by decide) (by decide) (by decide) (by decide)

/-! ### Reconciliation lemmas -/

lemma updateKept_period (c : Contract) (inv : Invoice) :
    (updateKept c inv).period = inv.period := by
  unfold updateKept
  dsimp only
  split_ifs <;> rfl

lemma updateKept_id (c : Contract) (inv : Invoice) :
    (updateKept c inv).id = inv.id := by
  unfold updateKept
  dsimp only
  split_ifs <;> rfl

lemma updateKept_contractId (c : Contract) (inv : Invoice) :
    (updateKept c inv).contractId = inv.contractId := by
  unfold updateKept
  dsimp only
  split_ifs <;> rfl

lemma updateKept_payments (c : Contract) (inv : Invoice) :
    (updateKept c inv).payments = inv.payments := by
  unfold updateKept
  dsimp only
  split_ifs <;> rfl

lemma adjustDeposit_dates (orig u : Contract) :
    (adjustDeposit orig u).id = u.id ∧
    (adjustDeposit orig u).startDate = u.startDate ∧
    (adjustDeposit orig u).endDate = u.endDate := by
  unfold adjustDeposit
  split_ifs <;> exact ⟨rfl, rfl, rfl⟩

/-- The forEach over a contract's surviving invoices, when their period
list is exactly a dup-free prefix of the wanted-period list: every invoice
is kept (updated in place, in order) and the leftover wanted periods are
exactly the suffix. -/
lemma foldl_keepStep_exact (c : Contract) :
    ∀ (mine : List Invoice) (P Q : List Period) (acc : List Invoice),
      mine.map (fun i => i.period) = P → (P ++ Q).Nodup →
      mine.foldl (keepStep c) (acc, P ++ Q)
        = (acc ++ mine.map (updateKept c), Q) := by
  intro mine
  induction mine with
  | nil =>
      intro P Q acc hP hnd
      have hPnil : P = [] := by simpa using hP.symm
      subst hPnil
      simp
  | cons inv rest ih =>
      intro P Q acc hP hnd
      cases P with
      | nil => simp at hP
      | cons p P' =>
          simp only [List.map_cons, List.cons.injEq] at hP
          obtain ⟨hp, hP'⟩ := hP
          subst hp
          have hstep : keepStep c (acc, inv.period :: P' ++ Q) inv
              = (acc ++ [updateKept c inv], P' ++ Q) := by
            unfold keepStep
            rw [if_pos (by exact List.mem_cons_self _ _)]
            dsimp only
            simp
          have hnd' : (P' ++ Q).Nodup := by
            simp only [List.cons_append, List.nodup_cons] at hnd
            exact hnd.2
          simp only [List.foldl_cons]
          rw [show ((inv.period :: P') ++ Q) = inv.period :: (P' ++ Q)
            from rfl] at *
          rw [hstep, ih P' Q (acc ++ [updateKept c inv]) hP' hnd']
          simp

/-- Invariant carried through the forEach: every kept invoice's period and
every remaining wanted period satisfies any property holding initially. -/
lemma foldl_keepStep_sub (c : Contract) (R : Period → Prop) :
    ∀ (mine : List Invoice) (st : List Invoice × List Period),
      (∀ x ∈ st.1, R x.period) → (∀ p ∈ st.2, R p) →
      (∀ x ∈ (mine.foldl (keepStep c) st).1, R x.period) ∧
      (∀ p ∈ (mine.foldl (keepStep c) st).2, R p) := by
  intro mine
  induction mine with
  | nil =>
      intro st h1 h2
      exact ⟨h1, h2⟩
  | cons inv rest ih =>
      intro st h1 h2
      simp only [List.foldl_cons]
      apply ih
      · intro x hx
        unfold keepStep at hx
        split_ifs at hx with hm
        · rcases List.mem_append.mp hx with hx | hx
          · exact h1 x hx
          · have hxe : x = updateKept c inv := by simpa using hx
            subst hxe
            rw [updateKept_period]
            exact h2 _ hm
        · exact h1 x hx
      · intro p hp
        unfold keepStep at hp
        split_ifs at hp with hm
        · exact h2 p (List.mem_of_mem_erase hp)
        · exact h2 p hp

/-- Reconciliation when the stored invoice periods are exactly a prefix of
the new wanted-period list: all stored invoices are kept and updated, and
one fresh invoice is created per leftover period, in order. -/
lemma reconcileInvoices_exact (c : Contract) (invs : List Invoice)
    (Q : List Period)
    (hP : (invs.filter (fun i => i.contractId == c.id)).map
          (fun i => i.period) ++ Q
        = (periodsFrom c.startDate c.endDate).map CivilDate.period)
    (hnd : ((periodsFrom c.startDate c.endDate).map
        CivilDate.period).Nodup) :
    reconcileInvoices c invs
      = invs.filter (fun i => !(i.contractId == c.id))
        ++ (invs.filter (fun i => i.contractId == c.id)).map (updateKept c)
        ++ Q.map (mkNewInvoice c) := by
  unfold reconcileInvoices
  rw [← hP] at hnd
  rw [← hP]
  dsimp only
  rw [foldl_keepStep_exact c _ _ Q [] rfl hnd]
  simp

lemma filter_map_updateKept (c : Contract) (invs : List Invoice) :
    ((invs.filter (fun i => i.contractId == c.id)).map
        (updateKept c)).filter (fun i => i.contractId == c.id)
      = (invs.filter (fun i => i.contractId == c.id)).map
          (updateKept c) := by
  rw [List.filter_eq_self]
  intro a ha
  obtain ⟨x, hx, rfl⟩ := List.mem_map.mp ha
  rw [updateKept_contractId]
  exact (List.mem_filter.mp hx).2

lemma filter_others_empty (c : Contract) (invs : List Invoice) :
    (invs.filter (fun i => !(i.contractId == c.id))).filter
        (fun i => i.contractId == c.id) = [] := by
  rw [List.filter_eq_nil_iff]
  intro a ha
  have h := (List.mem_filter.mp ha).2
  simp at h
  simp [h]

lemma filter_new_list (u : Contract) (Q : List Period) :
    (Q.map (mkNewInvoice u)).filter (fun i => i.contractId == u.id)
      = Q.map (mkNewInvoice u) := by
  rw [List.filter_eq_self]
  intro a ha
  obtain ⟨p, hp, rfl⟩ := List.mem_map.mp ha
  simp [mkNewInvoice]

/-- The invoices reconciliation keeps for a contract, when the stored
periods are a prefix of the wanted ones: the updated stored invoices
followed by the freshly created ones. -/
lemma reconcile_filter (u : Contract) (invs : List Invoice)
    (Q : List Period)
    (hP : (invs.filter (fun i => i.contractId == u.id)).map
          (fun i => i.period) ++ Q
        = (periodsFrom u.startDate u.endDate).map CivilDate.period)
    (hnd : ((periodsFrom u.startDate u.endDate).map
        CivilDate.period).Nodup) :
    (reconcileInvoices u invs).filter (fun i => i.contractId == u.id)
      = (invs.filter (fun i => i.contractId == u.id)).map (updateKept u)
        ++ Q.map (mkNewInvoice u) := by
  rw [reconcileInvoices_exact u invs Q hP hnd]
  rw [List.filter_append, List.filter_append]
  rw [filter_others_empty, filter_map_updateKept, filter_new_list]
  simp

lemma dateOfIdx_period (d : CivilDate) (day : Nat) (h1 : 1 ≤ d.month)
    (h2 : d.month ≤ 12) :
    (dateOfIdx d.monthIdx day).period = d.period := by
  unfold dateOfIdx CivilDate.period CivilDate.monthIdx
  simp only [Prod.mk.injEq]
  constructor <;> omega

/-! ### C3 -/

/-- Contract with a day-31 start whose single generated invoice spans only
January. -/
def c3cContract : Contract :=
  { sampleContract 1000 1000 PENDIENTE [] with
    startDate := ⟨2024, 1, 31⟩, endDate := ⟨2024, 1, 31⟩ }

/-- The same contract with its end date extended by one calendar month
(2024-01-31 to 2024-02-29). -/
def c3cUpdated : Contract :=
  { c3cContract with endDate := ⟨2024, 2, 29⟩ }

/-- C3, counterexample: extending the end date of the 2024-01-31 /
2024-01-31 contract by one month (to 2024-02-29) creates no invoice at
all — the walk's next date after Jan 31 is Mar 2, which lies beyond the
new end date, so the new trailing period 2024-02 never gets an invoice. -/
theorem c3_reconcile_extension_counterexample :
    c3cUpdated.endDate.monthIdx = c3cContract.endDate.monthIdx + 1 ∧
    (updateContractFn [c3cContract] (generateInvoices c3cContract)
        c3cUpdated).2.map (fun i => i.period) = [(2024, 1)] ∧
    ((2024, 2) : Period) ∉
      (updateContractFn [c3cContract] (generateInvoices c3cContract)
          c3cUpdated).2.map (fun i => i.period) ∧
    (updateContractFn [c3cContract] (generateInvoices c3cContract)
        c3cUpdated).2.length
      = (generateInvoices c3cContract).length := by
  refine ⟨by decide, by decide, by decide, by decide⟩

/-- C3 as amended: for a stored contract with valid dates, start
day-of-month at most 28 and start day at most the end day, updateContract
with the end date extended by exactly one calendar month keeps every
existing invoice (updated in place) and appends exactly one new invoice
for the new trailing period, created PENDING with an empty payment list;
and (unconditionally) after any updateContract every surviving invoice of
the contract has its period inside the new wanted-period set — invoices
whose period fell out of range, paid or not, are gone. -/
theorem c3_reconcile_extension :
    (∀ (cs : List Contract) (invs : List Invoice) (c u : Contract),
      cs.find? (fun x => x.id == u.id) = some c →
      u.id = c.id → u.monthlyRent = c.monthlyRent →
      u.startDate = c.startDate →
      u.endDate.monthIdx = c.endDate.monthIdx + 1 →
      u.endDate.day = c.endDate.day →
      1 ≤ c.startDate.month → c.startDate.month ≤ 12 →
      1 ≤ c.endDate.month → c.endDate.month ≤ 12 →
      1 ≤ u.endDate.month → u.endDate.month ≤ 12 →
      c.startDate.day ≤ 28 →
      c.startDate.leB c.endDate = true →
      c.startDate.day ≤ c.endDate.day →
      (invs.filter (fun i => i.contractId == u.id)).map (fun i => i.period)
        = (periodsFrom c.startDate c.endDate).map CivilDate.period →
      (updateContractFn cs invs u).2.filter
          (fun i => i.contractId == u.id)
        = (invs.filter (fun i => i.contractId == u.id)).map (updateKept u)
          ++ [mkNewInvoice u u.endDate.period] ∧
      (mkNewInvoice u u.endDate.period).status = PENDIENTE ∧
      (mkNewInvoice u u.endDate.period).payments = []) ∧
    (∀ (cs : List Contract) (invs : List Invoice) (u orig : Contract),
      cs.find? (fun x => x.id == u.id) = some orig →
      ∀ inv' ∈ (updateContractFn cs invs u).2,
        inv'.contractId = u.id →
        inv'.period ∈
          (periodsFrom u.startDate u.endDate).map CivilDate.period) := by
  constructor
  · intro cs invs c u hfind hid hrent hstart hendIdx hendDay hs1 hs2 he1
      he2 hue1 hue2 hd28 hse hde hP
    have hidxSE := leB_monthIdx_le c.startDate c.endDate hs1 hs2 he1 he2 hse
    have hnew : (periodsFrom u.startDate u.endDate).map CivilDate.period
        = (periodsFrom c.startDate c.endDate).map CivilDate.period
          ++ [u.endDate.period] := by
      rw [hstart]
      rw [periodsFrom_range c.startDate c.endDate hs1 hs2 hd28 he1 he2]
      rw [periodsFrom_range c.startDate u.endDate hs1 hs2 hd28 hue1 hue2]
      rw [if_pos hde, if_pos (by omega : c.startDate.day ≤ u.endDate.day)]
      have hk : u.endDate.monthIdx + 1 - c.startDate.monthIdx
          = (c.endDate.monthIdx + 1 - c.startDate.monthIdx) + 1 := by
        omega
      rw [hk, List.range'_concat]
      rw [List.map_append, List.map_append]
      congr 1
      have hlast : c.startDate.monthIdx
          + 1 * (c.endDate.monthIdx + 1 - c.startDate.monthIdx)
          = u.endDate.monthIdx := by
        omega
      rw [hlast]
      simp only [List.map_cons, List.map_nil, List.map_map,
        Function.comp]
      rw [dateOfIdx_period u.endDate c.startDate.day hue1 hue2]
    have hnd : ((periodsFrom u.startDate u.endDate).map
        CivilDate.period).Nodup := by
      rw [hstart]
      exact periodsFrom_periods_nodup c.startDate u.endDate hs1 hs2
    unfold updateContractFn
    rw [hfind]
    dsimp only
    rw [adjustDeposit_skip c u (Or.inr hrent.symm)]
    refine ⟨?_, rfl, rfl⟩
    rw [reconcile_filter u invs [u.endDate.period]
      (by rw [hP, ← hnew]) hnd]
    rfl
  · intro cs invs u orig hfind inv' hmem hcid
    unfold updateContractFn at hmem
    rw [hfind] at hmem
    dsimp only at hmem
    have hfid := (adjustDeposit_dates orig u).1
    have hfs := (adjustDeposit_dates orig u).2.1
    have hfe := (adjustDeposit_dates orig u).2.2
    unfold reconcileInvoices at hmem
    dsimp only at hmem
    have hsub := foldl_keepStep_sub (adjustDeposit orig u)
      (fun p => p ∈ (periodsFrom (adjustDeposit orig u).startDate
        (adjustDeposit orig u).endDate).map CivilDate.period)
      (invs.filter (fun i => i.contractId == (adjustDeposit orig u).id))
      ([], (periodsFrom (adjustDeposit orig u).startDate
        (adjustDeposit orig u).endDate).map CivilDate.period)
      (by simp) (fun p hp => hp)
    rcases List.mem_append.mp hmem with h | h
    · rcases List.mem_append.mp h with h | h
      · exfalso
        have h2 := (List.mem_filter.mp h).2
        rw [hfid] at h2
        simp [hcid] at h2
      · have h3 := hsub.1 inv' h
        rw [hfs, hfe] at h3
        exact h3
    · obtain ⟨p, hp, rfl⟩ := List.mem_map.mp h
      have h3 := hsub.2 p hp
      rw [hfs, hfe] at h3
      exact h3

/-- The example contract with its end date extended by one month. -/
def c3wUpdated : Contract :=
  { sampleContract 1000 1000 PENDIENTE [] with endDate := ⟨2024, 4, 15⟩ }

/-- C3 witness: extending the 2024-01-15 / 2024-03-15 contract to
2024-04-15 keeps its three invoices and appends exactly the one new
2024-04 invoice. -/
theorem c3_reconcile_extension_witness :
    (updateContractFn [sampleContract 1000 1000 PENDIENTE []]
        (generateInvoices (sampleContract 1000 1000 PENDIENTE []))
        c3wUpdated).2.filter (fun i => i.contractId == c3wUpdated.id)
      = ((generateInvoices (sampleContract 1000 1000 PENDIENTE [])).filter
          (fun i => i.contractId == c3wUpdated.id)).map
          (updateKept c3wUpdated)
        ++ [mkNewInvoice c3wUpdated c3wUpdated.endDate.period] := by
  exact (c3_reconcile_extension.1
    [sampleContract 1000 1000 PENDIENTE []]
    (generateInvoices (sampleContract 1000 1000 PENDIENTE []))
    (sampleContract 1000 1000 PENDIENTE []) c3wUpdated
    (by decide) (by decide) (by decide) (by decide) (by decide)
    (by decide) (by decide) (by decide) (by decide) (by decide)
    (by decide) (by decide) (by decide) (by decide) (by decide)
    (by decide)).1

/-! ### C7 -/

/-- C7: updateContract with a contract identical to the stored one leaves
the contract list untouched (so in particular every deposit field), keeps
exactly the existing invoices of that contract (same ids — zero creates,
zero deletes), and the in-place update leaves every unpaid invoice's
totalAmount, balance and payment list numerically unchanged (given the
stored invoice totals reflect the contract's terms, as generation ensures). -/
theorem c7_update_idempotent :
    ∀ (cs : List Contract) (invs : List Invoice) (c : Contract),
      cs.find? (fun x => x.id == c.id) = some c →
      (∀ x ∈ cs, x.id = c.id → x = c) →
      1 ≤ c.startDate.month → c.startDate.month ≤ 12 →
      (invs.filter (fun i => i.contractId == c.id)).map (fun i => i.period)
        = (periodsFrom c.startDate c.endDate).map CivilDate.period →
      (updateContractFn cs invs c).1 = cs ∧
      (updateContractFn cs invs c).2.filter
          (fun i => i.contractId == c.id)
        = (invs.filter (fun i => i.contractId == c.id)).map
            (updateKept c) ∧
      ((updateContractFn cs invs c).2.filter
          (fun i => i.contractId == c.id)).map (fun i => i.id)
        = (invs.filter (fun i => i.contractId == c.id)).map
            (fun i => i.id) ∧
      (∀ inv ∈ invs.filter (fun i => i.contractId == c.id),
        inv.status ≠ PAGADO →
        inv.totalAmount = c.monthlyRent + chargesSum c.additionalCharges →
        (updateKept c inv).totalAmount = inv.totalAmount ∧
        (updateKept c inv).balance = inv.balance ∧
        (updateKept c inv).payments = inv.payments) := by
  intro cs invs c hfind huniq hs1 hs2 hP
  have hnd := periodsFrom_periods_nodup c.startDate c.endDate hs1 hs2
  have hfilter :
      (updateContractFn cs invs c).2.filter
          (fun i => i.contractId == c.id)
        = (invs.filter (fun i => i.contractId == c.id)).map
            (updateKept c) := by
    unfold updateContractFn
    rw [hfind]
    dsimp only
    rw [adjustDeposit_skip c c (Or.inr rfl)]
    rw [reconcile_filter c invs []
      (by rw [List.append_nil]; exact hP) hnd]
    simp
  refine ⟨?_, hfilter, ?_, ?_⟩
  · unfold updateContractFn
    rw [hfind]
    dsimp only
    rw [adjustDeposit_skip c c (Or.inr rfl)]
    apply map_eq_self
    intro x hx
    by_cases hxid : (x.id == c.id) = true
    · rw [if_pos hxid]
      exact (huniq x hx (by simpa using hxid)).symm
    · rw [if_neg hxid]
  · rw [hfilter]
    simp [Function.comp, updateKept_id]
  · intro inv hinv hstat htot
    unfold updateKept
    dsimp only
    rw [if_pos hstat]
    refine ⟨htot.symm, by dsimp only; omega, rfl⟩

/-- C7 witness: reconciling the example contract against itself leaves the
stored contract list unchanged. -/
theorem c7_update_idempotent_witness :
    (updateContractFn [sampleContract 1000 1000 PENDIENTE []]
        (generateInvoices (sampleContract 1000 1000 PENDIENTE []))
        (sampleContract 1000 1000 PENDIENTE [])).1
      = [sampleContract 1000 1000 PENDIENTE []] := by
  exact (c7_update_idempotent [sampleContract 1000 1000 PENDIENTE []]
    (generateInvoices (sampleContract 1000 1000 PENDIENTE []))
    (sampleContract 1000 1000 PENDIENTE [])
    (by decide) (by decide) (by decide) (by decide) (by decide)).1

end Monoambientes
